import Mathlib

/-!
Shallow embedding of the `reqwest-sse` library (files `src/lib.rs` and
`src/error.rs`), a streaming parser turning an HTTP response body into a
sequence of Server-Sent Events.

Modelling choices:
- Rust `String`/`&str` values become `List Char`; `Duration` becomes a `Nat`
  count of milliseconds.
- The asynchronous byte stream becomes the list of line-read outcomes the
  loop in `EventSource::events` observes: each element is either a line
  (already split on the newline byte by `split_lines`, mirroring
  `read_line` + `strip_suffix`) or an I/O failure.
- `try_stream!` with `?` yields the error as one item and terminates, which
  `run_stream` reproduces.
-/

/-- `Event` from `src/lib.rs`: the Server-Sent Event record produced by the
stream. -/
structure Event where
  event_type : List Char
  data : List Char
  last_event_id : Option (List Char)
  retry : Option Nat
deriving DecidableEq

/-- `EventBuffer` from `src/lib.rs`: internal accumulation state used while
assembling one event. -/
structure EventBuffer where
  event_type : List Char
  data : List Char
  last_event_id : Option (List Char)
  retry : Option Nat
deriving DecidableEq

/-- `EventBuffer::new`: fresh buffer with empty strings and unset options. -/
def EventBuffer.new : EventBuffer :=
  { event_type := [], data := [], last_event_id := none, retry := none }

/-- `EventBuffer::produce_event`: emit an event when `data` is non-empty
(defaulting `event_type` to `"message"` when empty), and clear the
`event_type` and `data` buffers in every case. -/
def EventBuffer.produce_event (b : EventBuffer) : Option Event × EventBuffer :=
  let event : Option Event :=
    if !b.data.isEmpty then
      some { event_type := if b.event_type.isEmpty then "message".data else b.event_type,
             data := b.data,
             last_event_id := b.last_event_id,
             retry := b.retry }
    else
      none
  (event, { b with event_type := [], data := [] })

/-- `EventBuffer::set_event_type`: replace the `event_type` buffer. -/
def EventBuffer.set_event_type (b : EventBuffer) (t : List Char) : EventBuffer :=
  { b with event_type := t }

/-- `EventBuffer::push_data`: append to the `data` buffer, preceded by a
newline separator when the buffer already has content. -/
def EventBuffer.push_data (b : EventBuffer) (d : List Char) : EventBuffer :=
  { b with data := (if !b.data.isEmpty then b.data ++ ['\n'] else b.data) ++ d }

/-- `EventBuffer::set_id`: record the last event id. -/
def EventBuffer.set_id (b : EventBuffer) (i : List Char) : EventBuffer :=
  { b with last_event_id := some i }

/-- `EventBuffer::set_retry`: record the reconnection delay (milliseconds). -/
def EventBuffer.set_retry (b : EventBuffer) (ms : Nat) : EventBuffer :=
  { b with retry := some ms }

/-- Rust `str::split_once(':')`: split at the first colon, `none` when no
colon occurs. -/
def split_once : List Char → Option (List Char × List Char)
  | [] => none
  | c :: rest =>
    if c = ':' then some ([], rest)
    else
      match split_once rest with
      | some (f, v) => some (c :: f, v)
      | none => none

/-- Rust `str::strip_prefix(' ').unwrap_or(value)`: drop exactly one leading
space when present. -/
def strip_one_space (v : List Char) : List Char :=
  match v with
  | c :: rest => if c = ' ' then rest else v
  | [] => v

/-- `parse_line` from `src/lib.rs`: split a line into field and value at the
first colon (whole line and empty value when there is none), then strip one
leading space from the value. -/
def parse_line (line : List Char) : List Char × List Char :=
  let p := (split_once line).getD (line, [])
  (p.1, strip_one_space p.2)

/-- Rust `str::parse::<u64>()`: an optional leading plus sign, then one or
more decimal digits, rejecting the empty digit string and values outside
`u64` range. -/
def parse_u64 (s : List Char) : Option Nat :=
  let digits := match s with
    | '+' :: rest => rest
    | _ => s
  if digits.isEmpty then none
  else if digits.all (fun c => c.isDigit) then
    let n := digits.foldl (fun acc c => acc * 10 + (c.toNat - 48)) 0
    if n < 2 ^ 64 then some n else none
  else none

/-- One iteration of the loop body in `EventSource::events` for a line that
was read successfully: a blank line dispatches via `produce_event`; otherwise
the parsed field selects the buffer update, unknown fields and unparsable
retry values changing nothing. -/
def process_line (b : EventBuffer) (line : List Char) : Option Event × EventBuffer :=
  if line.isEmpty then
    b.produce_event
  else
    let fv := parse_line line
    if fv.1 = "event".data then (none, b.set_event_type fv.2)
    else if fv.1 = "data".data then (none, b.push_data fv.2)
    else if fv.1 = "id".data then (none, b.set_id fv.2)
    else if fv.1 = "retry".data then
      match parse_u64 fv.2 with
      | some millis => (none, b.set_retry millis)
      | none => (none, b)
    else (none, b)

/-- Helper for `split_lines`: accumulate the current line (reversed) while
scanning the input bytes. -/
def split_lines_aux : List Char → List Char → List (List Char)
  | [], acc => if acc.isEmpty then [] else [acc.reverse]
  | c :: rest, acc =>
    if c = '\n' then acc.reverse :: split_lines_aux rest []
    else split_lines_aux rest (c :: acc)

/-- The lines the `read_line` loop observes: the input split on the newline
byte, each terminator stripped; a final unterminated chunk is a line, while
end-of-input with nothing accumulated ends the sequence (`count == 0`). -/
def split_lines (input : List Char) : List (List Char) :=
  split_lines_aux input []

/-- `std::io::Error` payload as the loop observes it: an abstract message. -/
structure IoError where
  message : List Char
deriving DecidableEq

/-- `EventError` from `src/error.rs`: the per-item error of the event
stream. -/
inductive EventError where
  | IoError : IoError → EventError
deriving DecidableEq

/-- `EventSourceError` from `src/error.rs`: the eager validation errors of
`events()`. -/
inductive EventSourceError where
  | BadStatus : Nat → EventSourceError
  | BadContentType : Option (List Char) → EventSourceError
deriving DecidableEq

deriving instance DecidableEq for Except

/-- The `try_stream!` loop of `EventSource::events` over the sequence of
line-read outcomes: a failed read yields one error item and ends the stream;
a successful read is processed by `process_line`, yielding the dispatched
event when there is one. -/
def run_stream : EventBuffer → List (Except IoError (List Char)) → List (Except EventError Event)
  | _, [] => []
  | _, Except.error e :: _ => [Except.error (EventError.IoError e)]
  | b, Except.ok line :: rest =>
    match process_line b line with
    | (some ev, b') => Except.ok ev :: run_stream b' rest
    | (none, b') => run_stream b' rest

/-- The Event Assembler run over a list of lines with no read failures:
the emitted events in order, together with the final buffer state. -/
def run_lines : EventBuffer → List (List Char) → List Event × EventBuffer
  | b, [] => ([], b)
  | b, line :: rest =>
    let p := process_line b line
    let q := run_lines p.2 rest
    (p.1.toList ++ q.1, q.2)

/-- `MIME_EVENT_STREAM` from `src/lib.rs`: the exact content-type header
value required. -/
def MIME_EVENT_STREAM : List Char := "text/event-stream".data

/-- The parts of `reqwest::Response` that `events()` reads: the status code,
the optional `content-type` header value, and the body bytes. -/
structure Response where
  status : Nat
  content_type : Option (List Char)
  body : List Char
deriving DecidableEq

/-- Whole-body event sequence: split the body into lines and run the
assembler loop, starting from a fresh buffer. -/
def process_input (input : List Char) : List (Except EventError Event) :=
  run_stream EventBuffer.new ((split_lines input).map Except.ok)

/-- `EventSource::events` for `Response`: reject a status other than 200,
then a content-type other than exactly `text/event-stream`, and only then
return the event stream built from the body. -/
def events (r : Response) : Except EventSourceError (List (Except EventError Event)) :=
  if r.status ≠ 200 then Except.error (EventSourceError.BadStatus r.status)
  else if r.content_type ≠ some MIME_EVENT_STREAM then
    Except.error (EventSourceError.BadContentType r.content_type)
  else Except.ok (process_input r.body)

/-- Spec-side counterpart of `parse_line`, written from the spec's words:
the field is the part of the line before the FIRST colon (the whole line
when no colon occurs, with an empty value); the value is the part after that
colon, with exactly one leading space stripped and any further leading
spaces preserved. -/
def parse_line_spec_fn (l : List Char) : List Char × List Char :=
  let field := l.takeWhile (fun c => c != ':')
  let after := (l.dropWhile (fun c => c != ':')).drop 1
  let value :=
    match after with
    | a :: rest => if a = ' ' then rest else a :: rest
    | [] => []
  (field, value)

/-- The space-trimmed values of the `data` field lines among `ls`, in
order. -/
def data_values (ls : List (List Char)) : List (List Char) :=
  ls.filterMap (fun l => if (parse_line l).1 = "data".data then some (parse_line l).2 else none)

/-- The `data` buffer update of `push_data`, as a fold step: append with a
newline separator only when the accumulator is non-empty. -/
def join_step (acc v : List Char) : List Char :=
  (if !acc.isEmpty then acc ++ ['\n'] else acc) ++ v

example : process_input "data: foo\ndata: bar\ndata: baz\n\n".data =
    [Except.ok ⟨"message".data, "foo\nbar\nbaz".data, none, none⟩] := by decide

example : process_input "data:\n\n".data = [] := by decide

example : process_input "data: a\ndata:\n\n".data =
    [Except.ok ⟨"message".data, "a\n".data, none, none⟩] := by decide

/-! ### Helper lemmas about one loop iteration -/

lemma process_line_blank (b : EventBuffer) : process_line b [] = b.produce_event := rfl

lemma process_line_cons (b : EventBuffer) (c : Char) (cs : List Char) :
    process_line b (c :: cs) =
      if (parse_line (c :: cs)).1 = "event".data then
        (none, b.set_event_type (parse_line (c :: cs)).2)
      else if (parse_line (c :: cs)).1 = "data".data then
        (none, b.push_data (parse_line (c :: cs)).2)
      else if (parse_line (c :: cs)).1 = "id".data then
        (none, b.set_id (parse_line (c :: cs)).2)
      else if (parse_line (c :: cs)).1 = "retry".data then
        match parse_u64 (parse_line (c :: cs)).2 with
        | some millis => (none, b.set_retry millis)
        | none => (none, b)
      else (none, b) := rfl

lemma process_line_fst (b : EventBuffer) (l : List Char) (h : l ≠ []) :
    (process_line b l).1 = none := by
  cases l with
  | nil => exact absurd rfl h
  | cons c cs =>
    rw [process_line_cons]
    split
    · rfl
    split
    · rfl
    split
    · rfl
    split
    · split <;> rfl
    · rfl

lemma process_line_data (b : EventBuffer) (l : List Char) (h : l ≠ []) :
    (process_line b l).2.data =
      if (parse_line l).1 = "data".data then join_step b.data (parse_line l).2
      else b.data := by
  cases l with
  | nil => exact absurd rfl h
  | cons c cs =>
    rw [process_line_cons]
    by_cases h1 : (parse_line (c :: cs)).1 = "event".data
    · rw [if_pos h1, if_neg (by rw [h1]; decide)]
      rfl
    rw [if_neg h1]
    by_cases h2 : (parse_line (c :: cs)).1 = "data".data
    · rw [if_pos h2, if_pos h2]
      rfl
    rw [if_neg h2, if_neg h2]
    by_cases h3 : (parse_line (c :: cs)).1 = "id".data
    · rw [if_pos h3]
      rfl
    rw [if_neg h3]
    by_cases h4 : (parse_line (c :: cs)).1 = "retry".data
    · rw [if_pos h4]
      cases parse_u64 (parse_line (c :: cs)).2 <;> rfl
    · rw [if_neg h4]

lemma process_line_etype (b : EventBuffer) (l : List Char) (h : l ≠ []) :
    (process_line b l).2.event_type =
      if (parse_line l).1 = "event".data then (parse_line l).2
      else b.event_type := by
  cases l with
  | nil => exact absurd rfl h
  | cons c cs =>
    rw [process_line_cons]
    by_cases h1 : (parse_line (c :: cs)).1 = "event".data
    · rw [if_pos h1, if_pos h1]
      rfl
    rw [if_neg h1, if_neg h1]
    by_cases h2 : (parse_line (c :: cs)).1 = "data".data
    · rw [if_pos h2]
      rfl
    rw [if_neg h2]
    by_cases h3 : (parse_line (c :: cs)).1 = "id".data
    · rw [if_pos h3]
      rfl
    rw [if_neg h3]
    by_cases h4 : (parse_line (c :: cs)).1 = "retry".data
    · rw [if_pos h4]
      cases parse_u64 (parse_line (c :: cs)).2 <;> rfl
    · rw [if_neg h4]

lemma process_line_id (b : EventBuffer) (l : List Char)
    (h : (parse_line l).1 ≠ "id".data) :
    (process_line b l).2.last_event_id = b.last_event_id := by
  cases l with
  | nil => rfl
  | cons c cs =>
    rw [process_line_cons]
    by_cases h1 : (parse_line (c :: cs)).1 = "event".data
    · rw [if_pos h1]
      rfl
    rw [if_neg h1]
    by_cases h2 : (parse_line (c :: cs)).1 = "data".data
    · rw [if_pos h2]
      rfl
    rw [if_neg h2, if_neg h]
    by_cases h4 : (parse_line (c :: cs)).1 = "retry".data
    · rw [if_pos h4]
      cases parse_u64 (parse_line (c :: cs)).2 <;> rfl
    · rw [if_neg h4]

lemma process_line_retry (b : EventBuffer) (l : List Char)
    (h : (parse_line l).1 ≠ "retry".data) :
    (process_line b l).2.retry = b.retry := by
  cases l with
  | nil => rfl
  | cons c cs =>
    rw [process_line_cons]
    by_cases h1 : (parse_line (c :: cs)).1 = "event".data
    · rw [if_pos h1]
      rfl
    rw [if_neg h1]
    by_cases h2 : (parse_line (c :: cs)).1 = "data".data
    · rw [if_pos h2]
      rfl
    rw [if_neg h2]
    by_cases h3 : (parse_line (c :: cs)).1 = "id".data
    · rw [if_pos h3]
      rfl
    rw [if_neg h3, if_neg h]

/-! ### Helper lemmas about whole runs -/

lemma run_lines_nil (b : EventBuffer) : run_lines b [] = ([], b) := rfl

lemma run_lines_cons (b : EventBuffer) (l : List Char) (ls : List (List Char)) :
    run_lines b (l :: ls) =
      ((process_line b l).1.toList ++ (run_lines (process_line b l).2 ls).1,
       (run_lines (process_line b l).2 ls).2) := rfl

lemma run_lines_append (b : EventBuffer) (xs ys : List (List Char)) :
    run_lines b (xs ++ ys) =
      ((run_lines b xs).1 ++ (run_lines (run_lines b xs).2 ys).1,
       (run_lines (run_lines b xs).2 ys).2) := by
  induction xs generalizing b with
  | nil => simp [run_lines_nil]
  | cons x xs ih =>
    simp only [List.cons_append, run_lines_cons, ih, List.append_assoc]

lemma run_lines_fst_nonblank (b : EventBuffer) (ls : List (List Char))
    (h : ∀ l ∈ ls, l ≠ []) : (run_lines b ls).1 = [] := by
  induction ls generalizing b with
  | nil => rfl
  | cons l ls ih =>
    rw [run_lines_cons, process_line_fst b l (h l (List.mem_cons_self l ls))]
    exact ih _ fun x hx => h x (List.mem_cons_of_mem l hx)

lemma data_values_nil : data_values [] = [] := rfl

lemma data_values_cons (l : List Char) (ls : List (List Char)) :
    data_values (l :: ls) =
      if (parse_line l).1 = "data".data then (parse_line l).2 :: data_values ls
      else data_values ls := by
  unfold data_values
  rw [List.filterMap_cons]
  split <;> rename_i heq
  · rw [if_neg]
    intro hc
    rw [if_pos hc] at heq
    exact Option.noConfusion heq
  · rename_i v
    by_cases hc : (parse_line l).1 = "data".data
    · rw [if_pos hc] at heq ⊢
      rw [Option.some.injEq] at heq
      rw [heq]
    · rw [if_neg hc] at heq
      exact Option.noConfusion heq

lemma run_lines_data (b : EventBuffer) (ls : List (List Char))
    (h : ∀ l ∈ ls, l ≠ []) :
    (run_lines b ls).2.data = (data_values ls).foldl join_step b.data := by
  induction ls generalizing b with
  | nil => rfl
  | cons l ls ih =>
    rw [run_lines_cons, data_values_cons]
    have hl : l ≠ [] := h l (List.mem_cons_self l ls)
    have hrest : ∀ x ∈ ls, x ≠ [] := fun x hx => h x (List.mem_cons_of_mem l hx)
    rw [ih _ hrest, process_line_data b l hl]
    by_cases hc : (parse_line l).1 = "data".data
    · rw [if_pos hc, if_pos hc, List.foldl_cons]
    · rw [if_neg hc, if_neg hc]

lemma run_lines_etype (b : EventBuffer) (ls : List (List Char))
    (h : ∀ l ∈ ls, l ≠ []) (he : ∀ l ∈ ls, (parse_line l).1 ≠ "event".data) :
    (run_lines b ls).2.event_type = b.event_type := by
  induction ls generalizing b with
  | nil => rfl
  | cons l ls ih =>
    rw [run_lines_cons]
    have hl : l ≠ [] := h l (List.mem_cons_self l ls)
    rw [ih _ (fun x hx => h x (List.mem_cons_of_mem l hx))
          (fun x hx => he x (List.mem_cons_of_mem l hx)),
        process_line_etype b l hl, if_neg (he l (List.mem_cons_self l ls))]

lemma join_step_nil_left (v : List Char) : join_step [] v = v := rfl

lemma join_step_eq_nil (a v : List Char) : join_step a v = [] ↔ a = [] ∧ v = [] := by
  cases a <;> simp [join_step]

lemma foldl_join_step_eq_nil (vals : List (List Char)) (a : List Char) :
    vals.foldl join_step a = [] ↔ a = [] ∧ ∀ v ∈ vals, v = [] := by
  induction vals generalizing a with
  | nil => simp
  | cons v vs ih =>
    rw [List.foldl_cons, ih, join_step_eq_nil]
    constructor
    · rintro ⟨⟨ha, hv⟩, hvs⟩
      exact ⟨ha, by simpa [hv] using hvs⟩
    · rintro ⟨ha, hall⟩
      exact ⟨⟨ha, hall v (List.mem_cons_self v vs)⟩,
             fun x hx => hall x (List.mem_cons_of_mem v hx)⟩

lemma produce_event_fst_toList (b : EventBuffer) :
    b.produce_event.1.toList ≠ [] ↔ b.data ≠ [] := by
  cases hd : b.data <;> simp [EventBuffer.produce_event, hd]

lemma run_stream_ok (b : EventBuffer) (ls : List (List Char)) :
    run_stream b (ls.map Except.ok) = ((run_lines b ls).1).map Except.ok := by
  induction ls generalizing b with
  | nil => rfl
  | cons l ls ih =>
    rw [List.map_cons, run_lines_cons]
    cases hp : process_line b l with
    | mk o b' =>
      cases o with
      | none => simp [run_stream, hp, ih]
      | some ev => simp [run_stream, hp, ih]

lemma parse_line_eq_spec (l : List Char) : parse_line l = parse_line_spec_fn l := by
  induction l with
  | nil => rfl
  | cons c cs ih =>
    by_cases hc : c = ':'
    · subst hc
      have h0 : parse_line (':' :: cs) = ([], strip_one_space cs) := by
        simp [parse_line, split_once]
      rw [h0]
      cases cs with
      | nil => rfl
      | cons a rest =>
        simp [parse_line_spec_fn, strip_one_space, List.takeWhile_cons, List.dropWhile_cons]
    · have hfst : (parse_line_spec_fn (c :: cs)).1 = c :: (parse_line_spec_fn cs).1 := by
        simp [parse_line_spec_fn, List.takeWhile_cons, hc]
      have hsnd : (parse_line_spec_fn (c :: cs)).2 = (parse_line_spec_fn cs).2 := by
        simp [parse_line_spec_fn, List.dropWhile_cons, hc]
      cases hs : split_once cs with
      | none =>
        have h2 : parse_line cs = (cs, []) := by
          simp [parse_line, hs, strip_one_space]
        have h3 : parse_line (c :: cs) = (c :: cs, []) := by
          simp [parse_line, split_once, hc, hs, strip_one_space]
        rw [h3, Prod.ext_iff]
        refine ⟨?_, ?_⟩
        · show c :: cs = (parse_line_spec_fn (c :: cs)).1
          rw [hfst, ← ih, h2]
        · show ([] : List Char) = (parse_line_spec_fn (c :: cs)).2
          rw [hsnd, ← ih, h2]
      | some fv =>
        have h2 : parse_line cs = (fv.1, strip_one_space fv.2) := by
          simp [parse_line, hs]
        have h3 : parse_line (c :: cs) = (c :: fv.1, strip_one_space fv.2) := by
          simp [parse_line, split_once, hc, hs]
        rw [h3, Prod.ext_iff]
        refine ⟨?_, ?_⟩
        · show c :: fv.1 = (parse_line_spec_fn (c :: cs)).1
          rw [hfst, ← ih, h2]
        · show strip_one_space fv.2 = (parse_line_spec_fn (c :: cs)).2
          rw [hsnd, ← ih, h2]

lemma split_lines_aux_newline (cs rest acc : List Char) (h : '\n' ∉ cs) :
    split_lines_aux (cs ++ '\n' :: rest) acc =
      (acc.reverse ++ cs) :: split_lines_aux rest [] := by
  induction cs generalizing acc with
  | nil => simp [split_lines_aux]
  | cons c cs ih =>
    have hc : c ≠ '\n' := fun hh => h (hh ▸ List.mem_cons_self c cs)
    have hcs : '\n' ∉ cs := fun hh => h (List.mem_cons_of_mem c hh)
    simp only [List.cons_append, split_lines_aux, if_neg hc]
    rw [List.append_eq, ih _ hcs]
    simp

/-! ### Claim theorems -/

/-- Claim C2: at every dispatch boundary (blank line), whether an event is
emitted or the accumulation is discarded, the event_type and data buffers are
cleared while last_event_id and retry are left unchanged; and any later line
whose field is not `id` (resp. not `retry`) also leaves last_event_id
(resp. retry) unchanged, so they persist until overwritten. -/
theorem dispatch_clears_buffers_keeps_id_retry (b : EventBuffer) (l : List Char) :
    ((process_line b []).2.event_type = [] ∧ (process_line b []).2.data = [] ∧
     (process_line b []).2.last_event_id = b.last_event_id ∧
     (process_line b []).2.retry = b.retry) ∧
    ((parse_line l).1 ≠ "id".data → (process_line b l).2.last_event_id = b.last_event_id) ∧
    ((parse_line l).1 ≠ "retry".data → (process_line b l).2.retry = b.retry) :=
  ⟨⟨rfl, rfl, rfl, rfl⟩, process_line_id b l, process_line_retry b l⟩

/-- Witness for claim C2 at a concrete buffer and a concrete data line. -/
theorem dispatch_clears_buffers_keeps_id_retry_w :
    (process_line ⟨"t".data, "d".data, some "x".data, some 5⟩ []).2.event_type = [] ∧
    (process_line ⟨"t".data, "d".data, some "x".data, some 5⟩ "data: a".data).2.last_event_id
        = some "x".data ∧
    (process_line ⟨"t".data, "d".data, some "x".data, some 5⟩ "data: a".data).2.retry
        = some 5 :=
  ⟨(dispatch_clears_buffers_keeps_id_retry ⟨"t".data, "d".data, some "x".data, some 5⟩
      "data: a".data).1.1,
   (dispatch_clears_buffers_keeps_id_retry ⟨"t".data, "d".data, some "x".data, some 5⟩
      "data: a".data).2.1 (by decide),
   (dispatch_clears_buffers_keeps_id_retry ⟨"t".data, "d".data, some "x".data, some 5⟩
      "data: a".data).2.2 (by decide)⟩

/-- Claim C4: every non-empty line is split into field and value at the first
colon; without a colon the field is the whole line and the value empty; one
leading space is stripped from the value and further spaces (and colons) are
kept — `parse_line` agrees with the spec-side description. -/
theorem parse_line_splits_at_first_colon (l : List Char) (h : l ≠ []) :
    parse_line l = parse_line_spec_fn l :=
  parse_line_eq_spec l

/-- Witness for claim C4 on a concrete line with an inner colon. -/
theorem parse_line_splits_at_first_colon_w :
    parse_line "data:  a:b".data = parse_line_spec_fn "data:  a:b".data :=
  parse_line_splits_at_first_colon "data:  a:b".data (by decide)

/-- Claim C5: a line whose field is none of event/data/id/retry (comment
lines with an empty field included), or a retry line whose value does not
parse as an unsigned integer, changes no state, yields no event and no
error. -/
theorem ignored_lines_no_state_change (b : EventBuffer) (l : List Char) (h : l ≠ [])
    (hf : ((parse_line l).1 ≠ "event".data ∧ (parse_line l).1 ≠ "data".data ∧
           (parse_line l).1 ≠ "id".data ∧ (parse_line l).1 ≠ "retry".data) ∨
          ((parse_line l).1 = "retry".data ∧ parse_u64 (parse_line l).2 = none)) :
    process_line b l = (none, b) := by
  cases l with
  | nil => exact absurd rfl h
  | cons c cs =>
    rw [process_line_cons]
    rcases hf with ⟨h1, h2, h3, h4⟩ | ⟨h4, hp⟩
    · rw [if_neg h1, if_neg h2, if_neg h3, if_neg h4]
    · rw [if_neg (by rw [h4]; decide), if_neg (by rw [h4]; decide),
          if_neg (by rw [h4]; decide), if_pos h4, hp]

/-- Witness for claim C5: a comment line and an unparsable retry line. -/
theorem ignored_lines_no_state_change_w :
    process_line EventBuffer.new ":comment".data = (none, EventBuffer.new) ∧
    process_line EventBuffer.new "retry: abc".data = (none, EventBuffer.new) :=
  ⟨ignored_lines_no_state_change EventBuffer.new ":comment".data (by decide)
     (Or.inl (by decide)),
   ignored_lines_no_state_change EventBuffer.new "retry: abc".data (by decide)
     (Or.inr (by decide))⟩

/-- Claim C6: events() returns BadStatus (carrying the status) for any non-200
status and BadContentType (carrying the observed header) for a missing or
wrong content-type, in both cases independently of the body; only when both
checks pass does it return the event stream of the body. -/
theorem events_validates_before_body (r : Response) :
    (r.status ≠ 200 →
      events r = Except.error (EventSourceError.BadStatus r.status) ∧
      ∀ body2, events { r with body := body2 } =
        Except.error (EventSourceError.BadStatus r.status)) ∧
    (r.status = 200 → r.content_type ≠ some MIME_EVENT_STREAM →
      events r = Except.error (EventSourceError.BadContentType r.content_type) ∧
      ∀ body2, events { r with body := body2 } =
        Except.error (EventSourceError.BadContentType r.content_type)) ∧
    (r.status = 200 → r.content_type = some MIME_EVENT_STREAM →
      events r = Except.ok (process_input r.body)) := by
  refine ⟨fun hs => ⟨?_, fun body2 => ?_⟩, fun hs hc => ⟨?_, fun body2 => ?_⟩,
    fun hs hc => ?_⟩
  · simp [events, hs]
  · simp [events, hs]
  · simp [events, hs, hc]
  · simp [events, hs, hc]
  · simp [events, hs, hc]

/-- Witness for claim C6: a 404 response, a wrong content-type response, and
a valid response with a one-event body. -/
theorem events_validates_before_body_w :
    events ⟨404, some MIME_EVENT_STREAM, "data: hi\n\n".data⟩ =
      Except.error (EventSourceError.BadStatus 404) ∧
    events ⟨200, some "text/plain".data, "data: hi\n\n".data⟩ =
      Except.error (EventSourceError.BadContentType (some "text/plain".data)) ∧
    events ⟨200, some MIME_EVENT_STREAM, "data: hi\n\n".data⟩ =
      Except.ok (process_input "data: hi\n\n".data) :=
  ⟨((events_validates_before_body ⟨404, some MIME_EVENT_STREAM, "data: hi\n\n".data⟩).1
      (by decide)).1,
   ((events_validates_before_body ⟨200, some "text/plain".data, "data: hi\n\n".data⟩).2.1
      rfl (by decide)).1,
   (events_validates_before_body ⟨200, some MIME_EVENT_STREAM, "data: hi\n\n".data⟩).2.2
      rfl rfl⟩

/-- Claim C7: when the input ends without a trailing blank line, the
partially accumulated event is never emitted: trailing non-blank lines
contribute no events to the output. -/
theorem eof_discards_partial_event (b : EventBuffer) (ls suffix : List (List Char))
    (h : ∀ l ∈ suffix, l ≠ []) :
    (run_lines b (ls ++ suffix)).1 = (run_lines b ls).1 := by
  rw [run_lines_append, run_lines_fst_nonblank _ suffix h, List.append_nil]

/-- Witness for claim C7: a trailing data line with no blank line after it is
dropped. -/
theorem eof_discards_partial_event_w :
    (run_lines EventBuffer.new (["data: a".data, []] ++ ["data: lost".data])).1 =
      (run_lines EventBuffer.new ["data: a".data, []]).1 :=
  eof_discards_partial_event EventBuffer.new ["data: a".data, []] ["data: lost".data]
    (by decide)

/-- Claim C8: when a line read fails, the stream yields exactly one error
item carrying that I/O failure and then ends — whatever the source could
still deliver afterwards is never read. -/
theorem io_error_yields_one_item_then_ends (b : EventBuffer) (oks : List (List Char))
    (e : IoError) (rest : List (Except IoError (List Char))) :
    run_stream b (oks.map Except.ok ++ Except.error e :: rest) =
      ((run_lines b oks).1).map Except.ok ++ [Except.error (EventError.IoError e)] := by
  induction oks generalizing b with
  | nil => rfl
  | cons l ls ih =>
    rw [List.map_cons, List.cons_append, run_lines_cons]
    cases hp : process_line b l with
    | mk o b' =>
      cases o with
      | none => simp [run_stream, hp, ih]
      | some ev => simp [run_stream, hp, ih]

/-- Claim C9: line splitting strips only the trailing newline byte, so a
carriage return before it stays in the line; concretely `data: foo\r\n`
contributes the value `foo\r` to the event data. -/
theorem carriage_return_kept (cs rest : List Char) (h : '\n' ∉ cs) :
    split_lines (cs ++ '\r' :: '\n' :: rest) = (cs ++ ['\r']) :: split_lines rest ∧
    process_input "data: foo\r\n\n".data =
      [Except.ok ⟨"message".data, "foo\r".data, none, none⟩] := by
  constructor
  · have h2 : '\n' ∉ cs ++ ['\r'] := by
      intro hm
      rcases List.mem_append.mp hm with hm | hm
      · exact h hm
      · rw [List.mem_singleton] at hm
        exact absurd hm (by decide)
    have h3 := split_lines_aux_newline (cs ++ ['\r']) rest [] h2
    simpa [split_lines, List.append_assoc] using h3
  · decide

/-- Witness for claim C9 on a concrete CRLF-terminated line. -/
theorem carriage_return_kept_w :
    split_lines ("abc".data ++ '\r' :: '\n' :: "d".data) =
      ("abc".data ++ ['\r']) :: split_lines "d".data :=
  (carriage_return_kept "abc".data "d".data (by decide)).1

/-- Claim C10: a data field with an empty value leaves an empty data buffer
unchanged, but appends a bare newline separator to a non-empty one; so the
lines `data: a`, `data:`, blank yield one event whose data is `a\n`. -/
theorem empty_data_value_behaviour (b : EventBuffer) :
    (b.data = [] → (b.push_data []).data = []) ∧
    (b.data ≠ [] → (b.push_data []).data = b.data ++ ['\n']) ∧
    process_input "data: a\ndata:\n\n".data =
      [Except.ok ⟨"message".data, "a\n".data, none, none⟩] := by
  refine ⟨fun hd => ?_, fun hd => ?_, by decide⟩
  · simp [EventBuffer.push_data, hd]
  · cases hbd : b.data with
    | nil => exact absurd hbd hd
    | cons x xs => simp [EventBuffer.push_data, hbd]

/-- Witness for claim C10 on an empty and a non-empty buffer. -/
theorem empty_data_value_behaviour_w :
    (EventBuffer.new.push_data []).data = [] ∧
    ((⟨[], "a".data, none, none⟩ : EventBuffer).push_data []).data = "a".data ++ ['\n'] :=
  ⟨(empty_data_value_behaviour EventBuffer.new).1 rfl,
   (empty_data_value_behaviour ⟨[], "a".data, none, none⟩).2.1 (by decide)⟩

/-- Claim C1 counterexample: in the input `data:\n\n` a data: line occurs
before the blank-line boundary, yet no event is produced, because its empty
value left the data buffer empty. -/
theorem event_iff_data_line_cex :
    (parse_line "data:".data).1 = "data".data ∧
    split_lines "data:\n\n".data = ["data:".data, []] ∧
    process_input "data:\n\n".data = [] :=
  ⟨by decide, by decide, by decide⟩

/-- Claim C1 (amended): starting from a buffer with empty data (stream start
or just after a dispatch), processing non-blank lines `pre` and then a blank
line produces an event iff at least one line of `pre` is a data: line whose
(space-trimmed) value is non-empty. -/
theorem event_iff_nonempty_data_line (b : EventBuffer) (pre : List (List Char))
    (hb : b.data = []) (hpre : ∀ l ∈ pre, l ≠ []) :
    ((run_lines b (pre ++ [[]])).1 ≠ [] ↔
      ∃ l ∈ pre, (parse_line l).1 = "data".data ∧ (parse_line l).2 ≠ []) := by
  rw [run_lines_append, run_lines_fst_nonblank b pre hpre, List.nil_append]
  rw [run_lines_cons, process_line_blank]
  simp only [run_lines_nil, List.append_nil]
  rw [produce_event_fst_toList, run_lines_data b pre hpre, hb]
  rw [Ne, foldl_join_step_eq_nil]
  simp only [true_and, not_forall]
  constructor
  · rintro ⟨v, hv, hvne⟩
    unfold data_values at hv
    rcases List.mem_filterMap.mp hv with ⟨l, hl, hfl⟩
    by_cases hc : (parse_line l).1 = "data".data
    · rw [if_pos hc, Option.some.injEq] at hfl
      refine ⟨l, hl, hc, ?_⟩
      rw [hfl]
      exact hvne
    · rw [if_neg hc] at hfl
      exact Option.noConfusion hfl
  · rintro ⟨l, hl, hc, hv⟩
    refine ⟨(parse_line l).2, ?_, hv⟩
    unfold data_values
    exact List.mem_filterMap.mpr ⟨l, hl, by rw [if_pos hc]⟩

/-- Witness for the amended claim C1: a single non-empty data line makes the
boundary produce an event. -/
theorem event_iff_nonempty_data_line_w :
    (run_lines EventBuffer.new (["data: hi".data] ++ [[]])).1 ≠ [] :=
  (event_iff_nonempty_data_line EventBuffer.new ["data: hi".data] rfl (by decide)).mpr
    (by decide)

/-- Claim C3 counterexample: for input `data:\ndata: a\n\n` the data values
since the start are `""` and `"a"`; joined with a newline they give `"\na"`,
but the emitted event's data is `"a"`. -/
theorem event_data_is_joined_values_cex :
    data_values (split_lines "data:\ndata: a\n\n".data) = [[], "a".data] ∧
    process_input "data:\ndata: a\n\n".data =
      [Except.ok ⟨"message".data, "a".data, none, none⟩] ∧
    List.intercalate ['\n'] [[], "a".data] = "\na".data ∧
    "\na".data ≠ "a".data :=
  ⟨by decide, by decide, by decide, by decide⟩

/-- Claim C3 (amended): an event emitted at a dispatch boundary has as data
the data: values seen since the last dispatch combined in arrival order by
the buffer rule — a newline separator is inserted only when the accumulated
data is already non-empty, so values arriving while the buffer is still
empty are joined without a separator — and its type is "message" whenever no
event: line occurred since the last dispatch. -/
theorem event_data_is_buffer_join (b : EventBuffer) (pre : List (List Char)) (e : Event)
    (hbd : b.data = []) (hbt : b.event_type = [])
    (hpre : ∀ l ∈ pre, l ≠ [])
    (he : (run_lines b (pre ++ [[]])).1 = [e]) :
    e.data = (data_values pre).foldl join_step [] ∧
    ((∀ l ∈ pre, (parse_line l).1 ≠ "event".data) → e.event_type = "message".data) := by
  rw [run_lines_append, run_lines_fst_nonblank b pre hpre, List.nil_append] at he
  rw [run_lines_cons, process_line_blank] at he
  simp only [run_lines_nil, List.append_nil] at he
  have hdata : ((run_lines b pre).2).data = (data_values pre).foldl join_step [] := by
    rw [run_lines_data b pre hpre, hbd]
  simp only [EventBuffer.produce_event] at he
  cases hde : ((run_lines b pre).2).data with
  | nil =>
    rw [hde] at he
    simp at he
  | cons x xs =>
    rw [hde] at he
    simp only [List.isEmpty_cons, Bool.not_false, if_true, Option.toList_some] at he
    have hee : e = ⟨if ((run_lines b pre).2).event_type.isEmpty then "message".data
        else ((run_lines b pre).2).event_type, x :: xs,
        ((run_lines b pre).2).last_event_id, ((run_lines b pre).2).retry⟩ := by
      cases he
      rfl
    refine ⟨?_, fun hne => ?_⟩
    · rw [hee, ← hde, hdata]
    · have ht : ((run_lines b pre).2).event_type = [] := by
        rw [run_lines_etype b pre hpre hne, hbt]
      rw [hee, ht]
      rfl

/-- Witness for the amended claim C3 on two concrete data lines. -/
theorem event_data_is_buffer_join_w :
    ((⟨"message".data, "foo\nbar".data, none, none⟩ : Event).data =
      (data_values ["data: foo".data, "data: bar".data]).foldl join_step []) ∧
    ((∀ l ∈ ["data: foo".data, "data: bar".data], (parse_line l).1 ≠ "event".data) →
      (⟨"message".data, "foo\nbar".data, none, none⟩ : Event).event_type =
        "message".data) :=
  event_data_is_buffer_join EventBuffer.new ["data: foo".data, "data: bar".data]
    ⟨"message".data, "foo\nbar".data, none, none⟩ rfl rfl (by decide) (by decide)
